import Mathlib

/-!
Verification development for the DaAgent repository (the `src/agent` package:
`tools.py`, `utils.py`, `core.py`).

Shallow embedding conventions:
* Text is `List Char`.  Python's newline-terminated text handling is modelled
  with the `'\n'` terminator (the only terminator occurring in the repository's
  own data); `str.strip` is modelled on the ASCII whitespace characters.
* Filesystem paths are resolved path segments (`List (List Char)`); the
  resolver `(self.work_dir / path).resolve()` is an abstract parameter
  `resolve` mapping the raw string argument to a resolved path.
* The filesystem is an association list from resolved paths to entries
  (regular file with content, or directory).  OS-level failures that the
  Python code only sees as exceptions (permission errors, decode errors,
  a parent path component being a regular file) are outside the model; the
  directly representable failure modes (missing target, directory target)
  are modelled.
* Tool results are the returned message strings, built as in the source;
  where the source interpolates `str(e)` of a caught exception the model
  keeps the fixed message head only.
-/

namespace DaAgent

/-- `s.data` written as a list. All model text is `List Char`. -/
abbrev Text := List Char

/-- Resolved filesystem path, as a list of path segments. -/
abbrev FPath := List Text

/-- Python `str.isspace` characters relevant to `str.strip()` (ASCII subset:
space, tab, newline, carriage return, vertical tab, form feed). -/
def isPySpace (c : Char) : Bool :=
  c = ' ' || c = '\t' || c = '\n' || c = '\r' || c = Char.ofNat 11 || c = Char.ofNat 12

/-- Python `str.strip()`: drop leading and trailing whitespace. -/
def pystrip (l : Text) : Text :=
  ((l.dropWhile isPySpace).reverse.dropWhile isPySpace).reverse

/-- Helper for `splitlines(keepends=False)`: accumulate the current line
(reversed) and split at `'\n'`. -/
def splitNoKeepAux : Text → Text → List Text
  | [], acc => if acc = [] then [] else [acc.reverse]
  | ch :: cs, acc =>
    if ch = '\n' then acc.reverse :: splitNoKeepAux cs []
    else splitNoKeepAux cs (ch :: acc)

/-- Python `str.splitlines()` (no keepends), with `'\n'` as terminator:
`"a\nb" ↦ ["a","b"]`, `"a\n" ↦ ["a"]`, `"" ↦ []`. -/
def splitlinesNoKeep (c : Text) : List Text := splitNoKeepAux c []

/-- Helper for `splitlines(keepends=True)`. -/
def splitKeepAux : Text → Text → List Text
  | [], acc => if acc = [] then [] else [acc.reverse]
  | ch :: cs, acc =>
    if ch = '\n' then (acc.reverse ++ ['\n']) :: splitKeepAux cs []
    else splitKeepAux cs (ch :: acc)

/-- Python `str.splitlines(keepends=True)` with `'\n'` as terminator:
`"a\nb" ↦ ["a\n","b"]`, `"a\n" ↦ ["a\n"]`, `"" ↦ []`. -/
def splitlinesKeep (c : Text) : List Text := splitKeepAux c []

/-- Python `str.startswith(pat)` / the head test of substring search:
`isPre pat l` holds iff `pat` is a prefix of `l`. -/
def isPre [DecidableEq α] : List α → List α → Bool
  | [], _ => true
  | _ :: _, [] => false
  | a :: s, b :: t => a = b && isPre s t

/-- Index of the first occurrence of `pat` in `l` (Python `str.find` /
the `in` test combined): `some i` when the leftmost match starts at `i`,
`none` when there is no occurrence.  For `pat = []` this is `some 0`,
matching Python where `"" in s` is `True` and `s.find("") = 0`. -/
def findPrefixIdx [DecidableEq α] (pat : List α) : List α → Option Nat
  | [] => if isPre pat [] then some 0 else none
  | a :: s =>
    if isPre pat (a :: s) then some 0
    else (findPrefixIdx pat s).map (· + 1)

/-- Single quote character, used by the source's f-string messages. -/
def sq : Char := Char.ofNat 39

/-- tools.py: `f"POLICY ERROR: You must read '{path}' before writing to it."` -/
def policyWriteMsg (p : Text) : Text :=
  "POLICY ERROR: You must read ".data ++ (sq :: p ++ sq :: " before writing to it.".data)

/-- tools.py: `f"POLICY ERROR: You must read '{path}' before applying updates."` -/
def policyUpdatesMsg (p : Text) : Text :=
  "POLICY ERROR: You must read ".data ++ (sq :: p ++ sq :: " before applying updates.".data)

/-- tools.py: `f"Error: {path} does not exist."` (list_files). -/
def listNotFoundMsg (p : Text) : Text :=
  "Error: ".data ++ p ++ " does not exist.".data

/-- tools.py: `f"Error listing {path}: {str(e)}"`; the exception text is
abstracted away. -/
def errListingMsg (p : Text) : Text := "Error listing ".data ++ p

/-- tools.py: `f"Error: File {path} not found."` (read_file). -/
def readNotFoundMsg (p : Text) : Text :=
  "Error: File ".data ++ p ++ " not found.".data

/-- tools.py: `f"Error: {path} is a directory."` (read_file). -/
def isDirMsg (p : Text) : Text :=
  "Error: ".data ++ p ++ " is a directory.".data

/-- tools.py: `f"Successfully wrote to {path}"` (write_file). -/
def writeOkMsg (p : Text) : Text := "Successfully wrote to ".data ++ p

/-- tools.py: `f"Error writing to {path}: {str(e)}"`; exception text
abstracted. -/
def errWritingMsg (p : Text) : Text := "Error writing to ".data ++ p

/-- tools.py: `f"Error: Cannot apply diff, file {path} does not exist."` -/
def diffNotFoundMsg (p : Text) : Text :=
  "Error: Cannot apply diff, file ".data ++ p ++ " does not exist.".data

/-- tools.py: `f"Error patching {path}: {str(e)}"`; exception text
abstracted. -/
def errPatchingMsg (p : Text) : Text := "Error patching ".data ++ p

/-- tools.py apply_diff: the hint returned when no SEARCH marker is found at
all in the payload. -/
def formatHintMsg : Text :=
  "Error: Please use the <<<<<<< SEARCH / ======= / >>>>>>> REPLACE format for edits.".data

/-- tools.py _apply_search_replace: returned when the marker regexes do not
match the payload. -/
def invalidFormatMsg : Text :=
  "Error: Invalid Search/Replace format. Ensure you have the headers exactly.".data

/-- tools.py _apply_search_replace: exact-tier success message. -/
def exactMsg : Text := "Successfully applied edit (exact match).".data

/-- tools.py _apply_search_replace: relaxed-tier success message. -/
def relaxedMsg : Text := "Successfully applied edit (whitespace-relaxed match).".data

/-- tools.py _apply_search_replace: empty search block error. -/
def emptyMsg : Text := "Error: Search block is empty or only whitespace.".data

/-- tools.py _apply_search_replace: no-match error. -/
def notFoundMsg : Text :=
  "Error: Search block not found in file. Ensure exact match (or check your indentation).".data

/-- core.py: the agent loop's answer when the user denies a confirmation. -/
def deniedMsg : Text := "User denied permission.".data

/-- core.py: `f"Error: Unknown tool '{name}'"` -/
def unknownToolMsg (n : Text) : Text :=
  "Error: Unknown tool ".data ++ (sq :: n ++ [sq])

/-- Outcome of the pure patch computation of `_apply_search_replace`
(tools.py lines 130-189): either a new full text to be written plus the
success message, or an error message with no write. -/
inductive PatchResult where
  | written (newText msg : Text)
  | failed (msg : Text)
deriving DecidableEq

/-- `ToolRegistry._apply_search_replace` after the marker regex has extracted
`search_block` and `replace_block`, operating on
`original_lines = content.splitlines(keepends=True)`:
1. exact tier: if `search_block in original_text`, replace the first
   occurrence (`str.replace(search, replace, 1)`);
2. empty check: if the stripped search lines are all empty, fail;
3. whitespace-relaxed tier: strip every line of both sides, find the first
   window of the stripped original lines equal to the stripped search lines,
   splice the untouched original lines around
   `replace_block + "\\n"` — note the source writes the two-character
   string backslash-n (tools.py line 185), not a newline;
4. otherwise fail with the not-found message. -/
def applySRCore (originalLines : List Text) (searchBlock replaceBlock : Text) : PatchResult :=
  match findPrefixIdx searchBlock originalLines.flatten with
  | some i =>
      PatchResult.written
        (originalLines.flatten.take i ++ replaceBlock ++
          originalLines.flatten.drop (i + searchBlock.length))
        exactMsg
  | none =>
      if ((splitlinesNoKeep searchBlock).map pystrip).filter (fun l => !l.isEmpty) = [] then
        PatchResult.failed emptyMsg
      else
        match findPrefixIdx ((splitlinesNoKeep searchBlock).map pystrip)
            (originalLines.map pystrip) with
        | some i =>
            PatchResult.written
              ((originalLines.take i).flatten ++ replaceBlock ++ "\\n".data ++
                (originalLines.drop (i + ((splitlinesNoKeep searchBlock).map pystrip).length)).flatten)
              relaxedMsg
        | none => PatchResult.failed notFoundMsg

/-- A filesystem entry: a regular file with its text content, or a
directory. -/
inductive Entry where
  | file (content : Text)
  | dir
deriving DecidableEq

/-- `ToolRegistry` state: the filesystem (association list on resolved
paths; first binding wins) and `self.read_files`, the set of resolved paths
already read this session. -/
structure Reg where
  fs : List (FPath × Entry)
  readFiles : List FPath
deriving DecidableEq

/-- First-match association-list lookup (the filesystem's view of a path:
`none` means `target.exists()` is false). -/
def fsGet : List (FPath × Entry) → FPath → Option Entry
  | [], _ => none
  | (q, e) :: t, p => if q = p then some e else fsGet t p

/-- Update-or-insert into the filesystem. -/
def fsSet : List (FPath × Entry) → FPath → Entry → List (FPath × Entry)
  | [], p, e => [(p, e)]
  | (q, e0) :: t, p, e => if q = p then (p, e) :: t else (q, e0) :: fsSet t p e

/-- `self.read_files.add(str(target))`: set insertion. -/
def addRead (r : List FPath) (p : FPath) : List FPath :=
  if p ∈ r then r else p :: r

/-- The proper non-empty ancestors of a path (what
`target.parent.mkdir(parents=True, exist_ok=True)` creates as needed). -/
def properAncestors (p : FPath) : List FPath :=
  ((List.range p.length).map (fun k => p.take k)).filter (fun q => q ≠ [])

/-- Add directory entries for the given paths when absent (existing entries
are kept; `exist_ok=True`). -/
def addDirs (fs : List (FPath × Entry)) (ps : List FPath) : List (FPath × Entry) :=
  ps.foldl (fun f q => match fsGet f q with | none => f ++ [(q, Entry.dir)] | some _ => f) fs

/-- Names of the immediate children of `target` present in the filesystem
(`target.iterdir()`). -/
def childNamesAux (fs : List (FPath × Entry)) (target : FPath) : List Text :=
  fs.filterMap (fun pe =>
    if pe.1.take target.length = target ∧ pe.1.length = target.length + 1 then pe.1.getLast?
    else none)

/-- Deduplication keeping first occurrences. -/
def dedupAux [DecidableEq α] : List α → List α → List α
  | [], acc => acc.reverse
  | a :: t, acc => if a ∈ acc then dedupAux t acc else dedupAux t (a :: acc)

/-- Immediate child names of a directory, without duplicates. -/
def childNames (fs : List (FPath × Entry)) (target : FPath) : List Text :=
  dedupAux (childNamesAux fs target) []

/-- Python string comparison: lexicographic on code points. -/
def lexLe : Text → Text → Bool
  | [], _ => true
  | _ :: _, [] => false
  | a :: s, b :: t => if a < b then true else if b < a then false else lexLe s t

/-- Ordered insertion for `sorted(files)`. -/
def insertLe (x : Text) : List Text → List Text
  | [] => [x]
  | a :: t => if lexLe x a then x :: a :: t else a :: insertLe x t

/-- Python `sorted` (stable, ascending). -/
def sortNames : List Text → List Text
  | [] => []
  | a :: t => insertLe a (sortNames t)

/-- `ToolRegistry.read_file`: error when the target is missing or a
directory; otherwise return the content and mark the resolved path read. -/
def read_file (resolve : Text → FPath) (s : Reg) (path : Text) : Reg × Text :=
  match fsGet s.fs (resolve path) with
  | none => (s, readNotFoundMsg path)
  | some Entry.dir => (s, isDirMsg path)
  | some (Entry.file c) =>
      ({ s with readFiles := addRead s.readFiles (resolve path) }, c)

/-- `ToolRegistry.write_file`: policy error when the target exists and was
never read; error when the target is a directory (`write_text` raises);
otherwise create parent directories as needed, write the file, mark the
path read, and report success. -/
def write_file (resolve : Text → FPath) (s : Reg) (path content : Text) : Reg × Text :=
  if (fsGet s.fs (resolve path)).isSome ∧ resolve path ∉ s.readFiles then
    (s, policyWriteMsg path)
  else if fsGet s.fs (resolve path) = some Entry.dir then
    (s, errWritingMsg path)
  else
    ({ fs := fsSet (addDirs s.fs (properAncestors (resolve path))) (resolve path)
          (Entry.file content),
       readFiles := addRead s.readFiles (resolve path) }, writeOkMsg path)

/-- `ToolRegistry.list_files`: error when the path does not exist; the
`iterdir` call raises on a file target (caught as the listing error);
otherwise the sorted immediate children, directories suffixed with `/`,
joined — as in the source (tools.py line 43) — with the literal
two-character string backslash-n. -/
def list_files (resolve : Text → FPath) (s : Reg) (path : Text) : Reg × Text :=
  match fsGet s.fs (resolve path) with
  | none => (s, listNotFoundMsg path)
  | some (Entry.file _) => (s, errListingMsg path)
  | some Entry.dir =>
      (s, List.intercalate ("\\n".data)
        ((sortNames (childNames s.fs (resolve path))).map (fun n =>
          if fsGet s.fs (resolve path ++ [n]) = some Entry.dir then n ++ "/".data else n)))

/-- The outcome of parsing the raw diff payload in `apply_diff` /
`_apply_search_replace`: no `SEARCH` marker found by the pre-check regex,
marker structure present but the block regexes fail, or an extracted
(search, replace) pair.  The regex machinery itself is abstracted to this
outcome. -/
inductive ParseOutcome where
  | noMarker
  | badFormat
  | ok (searchBlock replaceBlock : Text)
deriving DecidableEq

/-- `ToolRegistry.apply_diff`: NotFound when the target does not exist,
policy error when it was never read, the exception branch when the target
is a directory (`read_text` raises), and otherwise delegation to the patch
engine on `content.splitlines(keepends=True)`, writing the new text on
success. -/
def apply_diff (resolve : Text → FPath) (s : Reg) (path : Text) (pr : ParseOutcome) :
    Reg × Text :=
  match fsGet s.fs (resolve path) with
  | none => (s, diffNotFoundMsg path)
  | some e =>
    if resolve path ∉ s.readFiles then (s, policyUpdatesMsg path)
    else
      match e with
      | Entry.dir => (s, errPatchingMsg path)
      | Entry.file c =>
        match pr with
        | ParseOutcome.noMarker => (s, formatHintMsg)
        | ParseOutcome.badFormat => (s, invalidFormatMsg)
        | ParseOutcome.ok sb rb =>
          match applySRCore (splitlinesKeep c) sb rb with
          | PatchResult.written t m =>
              ({ s with fs := fsSet s.fs (resolve path) (Entry.file t) }, m)
          | PatchResult.failed m => (s, m)

/-- tools.py grep_files: the composed shell command
`f"grep -r '{pattern}' {path}"` with the default path `"."`. -/
def grepCommand (pat : Text) : Text :=
  "grep -r ".data ++ (sq :: pat ++ sq :: " .".data)

end DaAgent

namespace DaAgent

/-- utils.py: the `"TOOL:"` marker. -/
def toolMarker : Text := "TOOL:".data

/-- utils.py: the `"ARG1:"` marker. -/
def arg1Marker : Text := "ARG1:".data

/-- utils.py: the `"ARG2:"` marker. -/
def arg2Marker : Text := "ARG2:".data

/-- utils.py: the literal `"<<<<<<< SEARCH"` block-start test (exactly seven
angle brackets). -/
def blockStart : Text := "<<<<<<< SEARCH".data

/-- utils.py: the `"edit_file"` tool name. -/
def editName : Text := "edit_file".data

/-- Python `line.split(":", 1)[1]`: everything after the first colon. -/
def afterColon : Text → Text
  | [] => []
  | c :: t => if c = ':' then t else afterColon t

/-- `line.split(":", 1)[1].strip()`. -/
def colonTail (l : Text) : Text := pystrip (afterColon l)

/-- utils.py parse_llm_action, ARG1 continuation loop: accumulate raw lines
into `arg1` (joined with `'\n'`) until an `ARG2:`/`TOOL:` line or — for
`edit_file` — the start of a search/replace block; returns the accumulated
argument and the remaining lines. -/
def collectArg1 (tool : Text) : List Text → Text → Text × List Text
  | [], acc => (acc, [])
  | l :: ls, acc =>
    if isPre arg2Marker l = true ∨ isPre toolMarker l = true then (acc, l :: ls)
    else if tool = editName ∧ isPre blockStart l = true then (acc, l :: ls)
    else collectArg1 tool ls (acc ++ '\n' :: l)

/-- utils.py parse_llm_action, ARG2 continuation loop: accumulate raw lines
until the next `TOOL:` line. -/
def collectArg2 : List Text → Text → Text
  | [], acc => acc
  | l :: ls, acc =>
    if isPre toolMarker l = true then acc else collectArg2 ls (acc ++ '\n' :: l)

/-- The state update performed for one `TOOL:` line, given the lines that
follow it.  The tool name is always overwritten; `arg1`/`arg2` are only
overwritten when the marker is immediately followed by an `ARG1:` line
(and, for `arg2`, when an `ARG2:` line or an `edit_file` block start
terminates the ARG1 run) — otherwise the previous values persist. -/
def blockUpdate (tool : Text) (rest : List Text) (oldA1 : Option Text) (oldA2 : Text) :
    Option Text × Option Text × Text :=
  match rest with
  | [] => (some tool, oldA1, oldA2)
  | l1 :: ls1 =>
    if isPre arg1Marker l1 = true then
      match collectArg1 tool ls1 (colonTail l1) with
      | (a1f, []) => (some tool, some a1f, oldA2)
      | (a1f, l2 :: ls2) =>
        if isPre arg2Marker l2 = true then
          (some tool, some a1f, collectArg2 ls2 (colonTail l2))
        else if tool = editName ∧ isPre blockStart l2 = true then
          (some tool, some a1f, collectArg2 ls2 l2)
        else (some tool, some a1f, oldA2)
    else (some tool, oldA1, oldA2)

/-- utils.py parse_llm_action main loop: scan every line; each `TOOL:` line
triggers `blockUpdate` with the lines following it (state is carried across
markers, so later markers without their own arguments keep earlier
values). -/
def parseLines : List Text → Option Text × Option Text × Text →
    Option Text × Option Text × Text
  | [], st => st
  | l :: ls, st =>
    if isPre toolMarker l = true then
      parseLines ls (blockUpdate (colonTail l) ls st.2.1 st.2.2)
    else parseLines ls st

/-- `parse_llm_action(response_text)`: operates on
`response_text.strip().splitlines()`; returns `(tool, arg1, arg2)` with
`tool = none` when no `TOOL:` line exists, `arg1` defaulting to `none`,
`arg2` to the empty string. -/
def parse_llm_action (t : Text) : Option Text × Option Text × Text :=
  parseLines (splitlinesNoKeep (pystrip t)) (none, none, [])

/-- The claim's reading of the parser (C8), written from the spec's words:
the tool name and both arguments are taken solely from the LAST `TOOL:`
line and the lines following it, with no state carried over from earlier
markers.  Defined only for comparison with `parse_llm_action`. -/
def parseSpecLines : List Text → Option (Option Text × Option Text × Text)
  | [] => none
  | l :: ls =>
    match parseSpecLines ls with
    | some st => some st
    | none =>
      if isPre toolMarker l = true then some (blockUpdate (colonTail l) ls none [])
      else none

/-- The claim's reading of `parse_llm_action` (see `parseSpecLines`). -/
def parseAsSpecified (t : Text) : Option Text × Option Text × Text :=
  (parseSpecLines (splitlinesNoKeep (pystrip t))).getD (none, none, [])

end DaAgent

namespace DaAgent

/-- core.py Agent.run, step 4 pre-emptive read (lines 71-75): for
`edit_file`/`write_file` with a non-empty first argument, silently
`read_file` the path before the confirmation gate and the dispatch. -/
def preRead (resolve : Text → FPath) (s : Reg) (tool arg1 : Text) : Reg :=
  if (tool = "edit_file".data ∨ tool = "write_file".data) ∧ arg1 ≠ [] then
    (read_file resolve s arg1).1
  else s

/-- core.py Agent._execute_tool: dispatch on the tool name.  Subprocess
output (`run_command`, `grep_files`) and web search output are abstracted
as the parameters `runOut`/`webOut`; the parse of an edit payload is
abstracted as `pr`. -/
def executeTool (resolve : Text → FPath) (runOut webOut : Text → Text) (s : Reg)
    (name arg1 arg2 : Text) (pr : ParseOutcome) : Reg × Text :=
  if name = "list_files".data then list_files resolve s (if arg1 = [] then (".".data) else arg1)
  else if name = "read_file".data then read_file resolve s arg1
  else if name = "write_file".data then write_file resolve s arg1 arg2
  else if name = "edit_file".data then apply_diff resolve s arg1 pr
  else if name = "run_command".data then (s, runOut arg1)
  else if name = "grep_files".data then (s, runOut (grepCommand arg1))
  else if name = "search_web".data then (s, webOut arg1)
  else (s, unknownToolMsg name)

/-- core.py Agent.run, one action execution (steps 4 of the loop): the
pre-emptive read, then the confirmation gate for dangerous tools (`deny`
is whether the user answered `n`; on timeout the answer defaults to yes),
then the dispatch. -/
def agentStep (resolve : Text → FPath) (runOut webOut : Text → Text) (s : Reg)
    (tool arg1 arg2 : Text) (pr : ParseOutcome) (confirmDangerous deny : Bool) :
    Reg × Text :=
  if confirmDangerous = true ∧
      (tool = "write_file".data ∨ tool = "edit_file".data ∨ tool = "run_command".data) then
    if deny = true then (preRead resolve s tool arg1, deniedMsg)
    else executeTool resolve runOut webOut (preRead resolve s tool arg1) tool arg1 arg2 pr
  else executeTool resolve runOut webOut (preRead resolve s tool arg1) tool arg1 arg2 pr

/-- A `ToolRegistry` operation, for session-level statements.  `run`
carries an arbitrary effect of the spawned shell command on the
filesystem; none of the subprocess-backed operations touch
`read_files`. -/
inductive Op where
  | list (path : Text)
  | read (path : Text)
  | write (path content : Text)
  | edit (path : Text) (pr : ParseOutcome)
  | run (cmd : Text) (eff : List (FPath × Entry) → List (FPath × Entry))
  | web (q : Text)

/-- One `ToolRegistry` operation applied to the session state. -/
def stepOp (resolve : Text → FPath) (runOut webOut : Text → Text) (s : Reg) :
    Op → Reg × Text
  | Op.list p => list_files resolve s p
  | Op.read p => read_file resolve s p
  | Op.write p c => write_file resolve s p c
  | Op.edit p pr => apply_diff resolve s p pr
  | Op.run c eff => ({ s with fs := eff s.fs }, runOut c)
  | Op.web q => (s, webOut q)

/-- `read_file` succeeds on this resolved path. -/
def readOK (s : Reg) (t : FPath) : Prop :=
  ∃ c, fsGet s.fs t = some (Entry.file c)

/-- `write_file` succeeds on this resolved path (no policy breach, target
not a directory). -/
def writeOK (s : Reg) (t : FPath) : Prop :=
  ¬((fsGet s.fs t).isSome ∧ t ∉ s.readFiles) ∧ fsGet s.fs t ≠ some Entry.dir

/-! Helper lemmas about the text primitives. -/

theorem isPre_iff [DecidableEq α] : ∀ (p l : List α), isPre p l = true ↔ ∃ t, l = p ++ t := by
  intro p
  induction p with
  | nil => intro l; simp [isPre]
  | cons a s ih =>
    intro l
    cases l with
    | nil => simp [isPre]
    | cons b t =>
      simp only [isPre, Bool.and_eq_true, decide_eq_true_eq, List.cons_append,
        List.cons.injEq, ih]
      constructor
      · rintro ⟨rfl, u, rfl⟩
        exact ⟨u, rfl, rfl⟩
      · rintro ⟨u, rfl, rfl⟩
        exact ⟨rfl, u, rfl⟩

theorem findPrefixIdx_zero [DecidableEq α] (pat l : List α) (hp : isPre pat l = true) :
    findPrefixIdx pat l = some 0 := by
  cases l <;> simp [findPrefixIdx, hp]

theorem findPrefixIdx_isPre [DecidableEq α] :
    ∀ (l pat : List α) (i : Nat), findPrefixIdx pat l = some i →
      isPre pat (l.drop i) = true := by
  intro l
  induction l with
  | nil =>
    intro pat i h
    simp only [findPrefixIdx] at h
    split at h
    · next hp => cases h; simpa using hp
    · cases h
  | cons a s ih =>
    intro pat i h
    simp only [findPrefixIdx] at h
    split at h
    · next hp => cases h; simpa using hp
    · next hp =>
      cases hfs : findPrefixIdx pat s with
      | none => rw [hfs] at h; cases h
      | some j =>
        rw [hfs] at h
        simp only [Option.map_some', Option.some.injEq] at h
        subst h
        simpa using ih pat j hfs

theorem findPrefixIdx_min [DecidableEq α] :
    ∀ (l pat : List α) (i : Nat), findPrefixIdx pat l = some i →
      ∀ j, j < i → isPre pat (l.drop j) = false := by
  intro l
  induction l with
  | nil =>
    intro pat i h j hj
    simp only [findPrefixIdx] at h
    split at h
    · cases h; omega
    · cases h
  | cons a s ih =>
    intro pat i h j hj
    simp only [findPrefixIdx] at h
    split at h
    · cases h; omega
    · next hp =>
      cases hfs : findPrefixIdx pat s with
      | none => rw [hfs] at h; cases h
      | some k =>
        rw [hfs] at h
        simp only [Option.map_some', Option.some.injEq] at h
        subst h
        cases j with
        | zero => simpa using hp
        | succ m => simpa using ih pat k hfs m (by omega)

theorem findPrefixIdx_none [DecidableEq α] :
    ∀ (l pat : List α), findPrefixIdx pat l = none →
      ∀ j, isPre pat (l.drop j) = false := by
  intro l
  induction l with
  | nil =>
    intro pat h j
    simp only [findPrefixIdx] at h
    split at h
    · cases h
    · next hp => simpa using hp
  | cons a s ih =>
    intro pat h j
    simp only [findPrefixIdx] at h
    split at h
    · cases h
    · next hp =>
      cases hfs : findPrefixIdx pat s with
      | none =>
        cases j with
        | zero => simpa using hp
        | succ m => simpa using ih pat hfs m
      | some k => rw [hfs] at h; cases h

theorem findPrefixIdx_of_occurs [DecidableEq α] :
    ∀ (u pat v : List α), ∃ i, findPrefixIdx pat (u ++ (pat ++ v)) = some i := by
  intro u
  induction u with
  | nil =>
    intro pat v
    refine ⟨0, ?_⟩
    have hp : isPre pat (pat ++ v) = true := (isPre_iff _ _).2 ⟨v, rfl⟩
    simpa using findPrefixIdx_zero pat (pat ++ v) hp
  | cons a u ih =>
    intro pat v
    obtain ⟨j, hj⟩ := ih pat v
    by_cases hp : isPre pat (a :: (u ++ (pat ++ v))) = true
    · exact ⟨0, by simp [findPrefixIdx, hp]⟩
    · refine ⟨j + 1, ?_⟩
      simp [findPrefixIdx, hp, hj]

theorem findPrefixIdx_decomp [DecidableEq α] (l pat : List α) (i : Nat)
    (h : findPrefixIdx pat l = some i) :
    l = l.take i ++ pat ++ l.drop (i + pat.length) := by
  obtain ⟨t, ht⟩ := (isPre_iff pat (l.drop i)).1 (findPrefixIdx_isPre l pat i h)
  have h3 : List.drop pat.length (List.drop i l) = t := by
    rw [ht, List.drop_left]
  have h2 : l.drop (i + pat.length) = t := by
    rw [← h3, List.drop_drop, Nat.add_comm i pat.length]
  conv_lhs => rw [← List.take_append_drop i l, ht]
  rw [h2, List.append_assoc]

theorem splitKeepAux_flatten : ∀ (cs acc : Text),
    (splitKeepAux cs acc).flatten = acc.reverse ++ cs := by
  intro cs
  induction cs with
  | nil => intro acc; by_cases h : acc = [] <;> simp [splitKeepAux, h]
  | cons ch cs ih =>
    intro acc
    by_cases h : ch = '\n' <;> simp [splitKeepAux, h, ih]

theorem flatten_splitlinesKeep (c : Text) : (splitlinesKeep c).flatten = c := by
  simpa using splitKeepAux_flatten c []

/-! Helper lemmas about the registry state. -/

theorem fsGet_fsSet_self : ∀ (fs : List (FPath × Entry)) (p : FPath) (e : Entry),
    fsGet (fsSet fs p e) p = some e := by
  intro fs
  induction fs with
  | nil => intro p e; simp [fsSet, fsGet]
  | cons pe t ih =>
    intro p e
    obtain ⟨q, e0⟩ := pe
    by_cases h : q = p <;> simp [fsSet, fsGet, h, ih]

theorem mem_addRead_self (r : List FPath) (p : FPath) : p ∈ addRead r p := by
  unfold addRead; split
  · assumption
  · exact List.mem_cons_self p r

theorem subset_addRead (r : List FPath) (p : FPath) : r ⊆ addRead r p := by
  intro q hq
  unfold addRead; split
  · exact hq
  · exact List.mem_cons_of_mem _ hq

theorem mem_addRead (r : List FPath) (p q : FPath) :
    q ∈ addRead r p ↔ q = p ∨ q ∈ r := by
  unfold addRead; split
  · next h =>
    constructor
    · exact Or.inr
    · rintro (rfl | hq)
      · exact h
      · exact hq
  · exact List.mem_cons

/-! Message discrimination. -/

theorem policyWriteMsg_take (p : Text) : (policyWriteMsg p).take 7 = "POLICY ".data := by
  unfold policyWriteMsg
  rw [List.take_append_of_le_length (by decide)]
  decide

theorem policyUpdatesMsg_take (p : Text) : (policyUpdatesMsg p).take 7 = "POLICY ".data := by
  unfold policyUpdatesMsg
  rw [List.take_append_of_le_length (by decide)]
  decide

theorem writeOkMsg_take (p : Text) : (writeOkMsg p).take 7 = "Success".data := by
  unfold writeOkMsg
  rw [List.take_append_of_le_length (by decide)]
  decide

theorem ne_policyWriteMsg (p : Text) (m : Text) (h : m.take 7 ≠ "POLICY ".data) :
    m ≠ policyWriteMsg p := by
  intro he
  exact h (he ▸ policyWriteMsg_take p)

theorem ne_policyUpdatesMsg (p : Text) (m : Text) (h : m.take 7 ≠ "POLICY ".data) :
    m ≠ policyUpdatesMsg p := by
  intro he
  exact h (he ▸ policyUpdatesMsg_take p)

theorem writeOkMsg_ne_policies (p q : Text) :
    writeOkMsg p ≠ policyWriteMsg q ∧ writeOkMsg p ≠ policyUpdatesMsg q :=
  ⟨ne_policyWriteMsg q _ (by rw [writeOkMsg_take]; decide),
   ne_policyUpdatesMsg q _ (by rw [writeOkMsg_take]; decide)⟩

/-- Every outcome of the patch engine carries one of its four fixed
messages. -/
theorem applySRCore_cases (ls : List Text) (sb rb : Text) :
    (∃ t, applySRCore ls sb rb = PatchResult.written t exactMsg) ∨
    (∃ t, applySRCore ls sb rb = PatchResult.written t relaxedMsg) ∨
    applySRCore ls sb rb = PatchResult.failed emptyMsg ∨
    applySRCore ls sb rb = PatchResult.failed notFoundMsg := by
  cases h1 : findPrefixIdx sb ls.flatten with
  | some i =>
    simp only [applySRCore, h1]
    exact Or.inl ⟨_, rfl⟩
  | none =>
    simp only [applySRCore, h1]
    by_cases h2 : ((splitlinesNoKeep sb).map pystrip).filter (fun l => !l.isEmpty) = []
    · rw [if_pos h2]
      exact Or.inr (Or.inr (Or.inl rfl))
    · rw [if_neg h2]
      cases h3 : findPrefixIdx ((splitlinesNoKeep sb).map pystrip) (ls.map pystrip) with
      | some i => exact Or.inr (Or.inl ⟨_, rfl⟩)
      | none => exact Or.inr (Or.inr (Or.inr rfl))

/-! Helper lemmas about the parser. -/

theorem parseLines_no_tool : ∀ (ls : List Text) (st : Option Text × Option Text × Text),
    (∀ l ∈ ls, isPre toolMarker l = false) → parseLines ls st = st := by
  intro ls
  induction ls with
  | nil => intro st _; rfl
  | cons l ls ih =>
    intro st h
    have hl := h l (List.mem_cons_self l ls)
    simp only [parseLines, hl]
    exact ih st (fun l' hl' => h l' (List.mem_cons_of_mem _ hl'))

theorem blockUpdate_fst (tool : Text) (rest : List Text) (a1 : Option Text) (a2 : Text) :
    (blockUpdate tool rest a1 a2).1 = some tool := by
  cases rest with
  | nil => rfl
  | cons l1 ls1 =>
    by_cases h1 : isPre arg1Marker l1 = true
    · simp only [blockUpdate, h1, if_true]
      cases hc : collectArg1 tool ls1 (colonTail l1) with
      | mk a1f after =>
        cases after with
        | nil => rfl
        | cons l2 ls2 =>
          by_cases h2 : isPre arg2Marker l2 = true
          · simp [h2]
          · by_cases h3 : tool = editName ∧ isPre blockStart l2 = true <;>
              simp [h2, h3]
    · simp [blockUpdate, h1]

theorem parseLines_last : ∀ (pre : List Text) (l : Text) (post : List Text)
    (st : Option Text × Option Text × Text),
    isPre toolMarker l = true →
    (∀ l' ∈ post, isPre toolMarker l' = false) →
    ∃ a1 a2, parseLines (pre ++ l :: post) st = blockUpdate (colonTail l) post a1 a2 := by
  intro pre
  induction pre with
  | nil =>
    intro l post st hl hpost
    refine ⟨st.2.1, st.2.2, ?_⟩
    simp only [List.nil_append, parseLines, hl, if_true]
    exact parseLines_no_tool post _ hpost
  | cons p pre ih =>
    intro l post st hl hpost
    cases hp : isPre toolMarker p with
    | true =>
      simp only [List.cons_append, parseLines, hp, if_true]
      exact ih l post _ hl hpost
    | false =>
      simp only [List.cons_append, parseLines, hp]
      exact ih l post st hl hpost

/-- `apply_diff` never changes the read set, whatever its branch. -/
theorem apply_diff_readFiles (resolve : Text → FPath) (s : Reg) (p : Text) (pr : ParseOutcome) :
    (apply_diff resolve s p pr).1.readFiles = s.readFiles := by
  cases hf : fsGet s.fs (resolve p) with
  | none => simp [apply_diff, hf]
  | some e =>
    by_cases hm : resolve p ∉ s.readFiles
    · simp [apply_diff, hf, hm]
    · cases e with
      | dir => simp [apply_diff, hf, hm]
      | file c =>
        cases pr with
        | noMarker => simp [apply_diff, hf, hm]
        | badFormat => simp [apply_diff, hf, hm]
        | ok sb rb =>
          cases hc : applySRCore (splitlinesKeep c) sb rb <;>
            simp [apply_diff, hf, hm, hc]

/-- `list_files` never changes the registry state. -/
theorem list_files_state (resolve : Text → FPath) (s : Reg) (p : Text) :
    (list_files resolve s p).1 = s := by
  cases hf : fsGet s.fs (resolve p) with
  | none => simp [list_files, hf]
  | some e => cases e <;> simp [list_files, hf]

/-! Concrete objects shared by the witnesses. -/

/-- A concrete resolver for witnesses: each raw string is its own resolved
single-segment path. -/
def resolveSeg : Text → FPath := fun l => [l]

/-- A trivial stand-in for subprocess/web output in witnesses. -/
def noOut : Text → Text := fun _ => []

/-- A session whose filesystem holds one never-read file `f`. -/
def s1demo : Reg :=
  { fs := [(["f".data], Entry.file ("old".data))], readFiles := [] }

/-- The same filesystem with `f` already read. -/
def s1demoR : Reg :=
  { fs := [(["f".data], Entry.file ("old".data))], readFiles := [["f".data]] }

/-- A directory `d` holding a subdirectory `sub` and a file `x`. -/
def s9demo : Reg :=
  { fs := [(["d".data], Entry.dir), (["d".data, "sub".data], Entry.dir),
           (["d".data, "x".data], Entry.file ("hi".data))],
    readFiles := [] }

/-! Claim theorems. -/

/-- C1: read-before-write for `write_file`.  If the target exists and its
resolved path was never read, the call fails with the PolicyViolation
message and the state is unchanged; if the path was read (or the target
does not exist, the target not being a directory), the call writes the
file, creates the missing ancestor directories, marks the path read and
reports success. -/
theorem write_file_read_before_write (resolve : Text → FPath) (s : Reg) (p c : Text) :
    (∀ e, fsGet s.fs (resolve p) = some e → resolve p ∉ s.readFiles →
      write_file resolve s p c = (s, policyWriteMsg p)) ∧
    ((resolve p ∈ s.readFiles ∨ fsGet s.fs (resolve p) = none) →
      fsGet s.fs (resolve p) ≠ some Entry.dir →
      write_file resolve s p c =
        ({ fs := fsSet (addDirs s.fs (properAncestors (resolve p))) (resolve p)
              (Entry.file c),
           readFiles := addRead s.readFiles (resolve p) }, writeOkMsg p) ∧
      fsGet (fsSet (addDirs s.fs (properAncestors (resolve p))) (resolve p)
          (Entry.file c)) (resolve p) = some (Entry.file c) ∧
      resolve p ∈ addRead s.readFiles (resolve p)) := by
  constructor
  · intro e he hnr
    unfold write_file
    rw [if_pos ⟨by rw [he]; rfl, hnr⟩]
  · intro hor hnd
    have hcond : ¬((fsGet s.fs (resolve p)).isSome = true ∧ resolve p ∉ s.readFiles) := by
      rintro ⟨hsome, hnm⟩
      rcases hor with h | h
      · exact hnm h
      · rw [h] at hsome; cases hsome
    unfold write_file
    rw [if_neg hcond, if_neg hnd]
    exact ⟨rfl, fsGet_fsSet_self _ _ _, mem_addRead_self _ _⟩

/-- C1 witness: policy failure on the unread file, success after reading. -/
theorem write_file_read_before_write_witness :
    write_file resolveSeg s1demo ("f".data) ("new".data) = (s1demo, policyWriteMsg ("f".data)) ∧
    write_file resolveSeg s1demoR ("f".data) ("new".data) =
      ({ fs := fsSet (addDirs s1demoR.fs (properAncestors (resolveSeg ("f".data))))
            (resolveSeg ("f".data)) (Entry.file ("new".data)),
         readFiles := addRead s1demoR.readFiles (resolveSeg ("f".data)) },
       writeOkMsg ("f".data)) :=
  ⟨(write_file_read_before_write resolveSeg s1demo ("f".data) ("new".data)).1
      (Entry.file ("old".data)) (by decide) (by decide),
   ((write_file_read_before_write resolveSeg s1demoR ("f".data) ("new".data)).2
      (Or.inl (by decide)) (by decide)).1⟩

/-- C2: at the spec's own Example 2 input the whitespace-relaxed tier
matches line 1 and splices the surrounding lines verbatim, but the source
(tools.py line 185) appends `"\\n"` — the literal two-character string
backslash-n — after the replacement instead of a newline character, so the
result differs from the text the claim (and spec Example 2) requires. -/
theorem relaxed_tier_literal_backslash :
    applySRCore ["Line A\n".data, "Line B\n".data, "Line C\n".data]
        ("  Line B  ".data) ("Line B (mod)".data)
      = PatchResult.written ("Line A\nLine B (mod)\\nLine C\n".data) relaxedMsg ∧
    ("Line A\nLine B (mod)\\nLine C\n".data : Text) ≠ "Line A\nLine B (mod)\nLine C\n".data := by
  decide

/-- C3: when the search text occurs verbatim in the original text, the
exact tier fires at the first occurrence: the result keeps the bytes
before and after that occurrence (all later occurrences included)
unchanged and substitutes only the matched region. -/
theorem exact_tier_replaces_first (ls : List Text) (sb rb u v : Text)
    (hocc : ls.flatten = u ++ (sb ++ v)) :
    ∃ i, findPrefixIdx sb ls.flatten = some i ∧
      (∀ j, j < i → isPre sb (ls.flatten.drop j) = false) ∧
      ls.flatten = ls.flatten.take i ++ sb ++ ls.flatten.drop (i + sb.length) ∧
      applySRCore ls sb rb =
        PatchResult.written
          (ls.flatten.take i ++ rb ++ ls.flatten.drop (i + sb.length)) exactMsg := by
  have hex : ∃ i, findPrefixIdx sb ls.flatten = some i := by
    rw [hocc]; exact findPrefixIdx_of_occurs u sb v
  obtain ⟨i, hi⟩ := hex
  exact ⟨i, hi, findPrefixIdx_min _ _ _ hi, findPrefixIdx_decomp _ _ _ hi,
    by simp only [applySRCore, hi]⟩

/-- C3 witness: Example 1 of the spec. -/
theorem exact_tier_replaces_first_witness :
    ∃ i, findPrefixIdx ("Line B".data)
        (["Line A\n".data, "Line B\n".data, "Line C\n".data] : List Text).flatten = some i ∧
      (∀ j, j < i → isPre ("Line B".data)
        ((["Line A\n".data, "Line B\n".data, "Line C\n".data] : List Text).flatten.drop j) = false) ∧
      (["Line A\n".data, "Line B\n".data, "Line C\n".data] : List Text).flatten =
        (["Line A\n".data, "Line B\n".data, "Line C\n".data] : List Text).flatten.take i ++
          "Line B".data ++
          (["Line A\n".data, "Line B\n".data, "Line C\n".data] : List Text).flatten.drop
            (i + ("Line B".data).length) ∧
      applySRCore ["Line A\n".data, "Line B\n".data, "Line C\n".data]
          ("Line B".data) ("Line B (mod)".data) =
        PatchResult.written
          ((["Line A\n".data, "Line B\n".data, "Line C\n".data] : List Text).flatten.take i ++
            "Line B (mod)".data ++
            (["Line A\n".data, "Line B\n".data, "Line C\n".data] : List Text).flatten.drop
              (i + ("Line B".data).length)) exactMsg :=
  exact_tier_replaces_first ["Line A\n".data, "Line B\n".data, "Line C\n".data]
    ("Line B".data) ("Line B (mod)".data) ("Line A\n".data) ("\nLine C\n".data) (by decide)

/-- C4: when the payload parsed into a well-formed block (non-empty after
normalization) and neither the exact tier nor the stripped-window tier
matches, `apply_diff` returns the not-found error — distinct from both
marker-parse errors — and leaves the state untouched. -/
theorem patch_no_match_atomic (resolve : Text → FPath) (s : Reg) (p sb rb c : Text)
    (hf : fsGet s.fs (resolve p) = some (Entry.file c))
    (hr : resolve p ∈ s.readFiles)
    (hwf : ((splitlinesNoKeep sb).map pystrip).filter (fun l => !l.isEmpty) ≠ [])
    (hexact : findPrefixIdx sb c = none)
    (hwin : findPrefixIdx ((splitlinesNoKeep sb).map pystrip)
      ((splitlinesKeep c).map pystrip) = none) :
    apply_diff resolve s p (ParseOutcome.ok sb rb) = (s, notFoundMsg) ∧
    notFoundMsg ≠ invalidFormatMsg ∧ notFoundMsg ≠ formatHintMsg := by
  refine ⟨?_, by decide, by decide⟩
  have hex2 : findPrefixIdx sb (splitlinesKeep c).flatten = none := by
    rw [flatten_splitlinesKeep]; exact hexact
  have hcore : applySRCore (splitlinesKeep c) sb rb = PatchResult.failed notFoundMsg := by
    simp only [applySRCore, hex2, if_neg hwf, hwin]
  simp [apply_diff, hf, hr, hcore]

/-- C4 witness: a block not present in any form in the read file. -/
theorem patch_no_match_atomic_witness :
    apply_diff resolveSeg s1demoR ("f".data) (ParseOutcome.ok ("zzz".data) ("r".data))
      = (s1demoR, notFoundMsg) ∧
    notFoundMsg ≠ invalidFormatMsg ∧ notFoundMsg ≠ formatHintMsg :=
  patch_no_match_atomic resolveSeg s1demoR ("f".data) ("zzz".data) ("r".data) ("old".data)
    (by decide) (by decide) (by decide) (by decide) (by decide)

/-- C5 counterexample: an empty search block does NOT fail — Python's
`"" in s` is always true, so the exact tier fires and inserts the
replacement at the start of the file. -/
theorem empty_search_counterexample :
    applySRCore ["abc".data] [] ("X".data) = PatchResult.written ("Xabc".data) exactMsg ∧
    ("Xabc".data : Text) ≠ "abc".data := by decide

/-- C5 (amended): a block whose search text is empty after normalization
fails with the empty-search error and leaves the text untouched only when
the search text does not occur verbatim in the original text; when it does
occur (the empty string always does), the exact tier replaces its first
occurrence instead. -/
theorem empty_search_fails_without_occurrence (ls : List Text) (sb rb : Text)
    (hempty : ((splitlinesNoKeep sb).map pystrip).filter (fun l => !l.isEmpty) = [])
    (hno : findPrefixIdx sb ls.flatten = none) :
    applySRCore ls sb rb = PatchResult.failed emptyMsg := by
  simp only [applySRCore, hno, if_pos hempty]

/-- C5 witness: a whitespace-only block absent from the file. -/
theorem empty_search_fails_without_occurrence_witness :
    applySRCore ["abc\n".data] ("   ".data) ("r".data) = PatchResult.failed emptyMsg :=
  empty_search_fails_without_occurrence ["abc\n".data] ("   ".data) ("r".data)
    (by decide) (by decide)

/-- C7: `apply_diff` preconditions: NotFound when the target is missing,
PolicyViolation when it exists but was never read — both for every payload
and without touching the state — and delegation to the patch engine
exactly when the target is an already-read file. -/
theorem apply_diff_preconditions (resolve : Text → FPath) (s : Reg) (p : Text)
    (pr : ParseOutcome) :
    (fsGet s.fs (resolve p) = none → apply_diff resolve s p pr = (s, diffNotFoundMsg p)) ∧
    (∀ e, fsGet s.fs (resolve p) = some e → resolve p ∉ s.readFiles →
      apply_diff resolve s p pr = (s, policyUpdatesMsg p)) ∧
    (∀ c, fsGet s.fs (resolve p) = some (Entry.file c) → resolve p ∈ s.readFiles →
      (pr = ParseOutcome.noMarker → apply_diff resolve s p pr = (s, formatHintMsg)) ∧
      (pr = ParseOutcome.badFormat → apply_diff resolve s p pr = (s, invalidFormatMsg)) ∧
      (∀ sb rb t m, pr = ParseOutcome.ok sb rb →
        applySRCore (splitlinesKeep c) sb rb = PatchResult.written t m →
        apply_diff resolve s p pr =
          ({ s with fs := fsSet s.fs (resolve p) (Entry.file t) }, m)) ∧
      (∀ sb rb m, pr = ParseOutcome.ok sb rb →
        applySRCore (splitlinesKeep c) sb rb = PatchResult.failed m →
        apply_diff resolve s p pr = (s, m))) := by
  refine ⟨?_, ?_, ?_⟩
  · intro h
    simp [apply_diff, h]
  · intro e he hnr
    simp [apply_diff, he, hnr]
  · intro c hc hr
    refine ⟨?_, ?_, ?_, ?_⟩
    · rintro rfl; simp [apply_diff, hc, hr]
    · rintro rfl; simp [apply_diff, hc, hr]
    · rintro sb rb t m rfl hcore; simp [apply_diff, hc, hr, hcore]
    · rintro sb rb m rfl hcore; simp [apply_diff, hc, hr, hcore]

/-- C7 witness: policy failure on the unread file, NotFound on a missing
path. -/
theorem apply_diff_preconditions_witness :
    apply_diff resolveSeg s1demo ("f".data) ParseOutcome.noMarker
      = (s1demo, policyUpdatesMsg ("f".data)) ∧
    apply_diff resolveSeg s1demo ("g".data) ParseOutcome.badFormat
      = (s1demo, diffNotFoundMsg ("g".data)) :=
  ⟨(apply_diff_preconditions resolveSeg s1demo ("f".data) ParseOutcome.noMarker).2.1
      (Entry.file ("old".data)) (by decide) (by decide),
   (apply_diff_preconditions resolveSeg s1demo ("g".data) ParseOutcome.badFormat).1
      (by decide)⟩

/-- C9: `list_files` on an existing directory returns the sorted immediate
children (directories slash-suffixed), but joined — tools.py line 43 —
with the literal two-character string backslash-n, so the output is a
single line, not one entry per line. -/
theorem list_files_literal_backslash :
    list_files resolveSeg s9demo ("d".data) = (s9demo, "sub/\\nx".data) ∧
    ("sub/\\nx".data : Text) ≠ "sub/\nx".data ∧
    list_files resolveSeg s9demo ("missing".data)
      = (s9demo, listNotFoundMsg ("missing".data)) := by
  decide

/-- When the session state already has the target read and present as a
file, neither `write_file` nor `apply_diff` dispatched through
`_execute_tool` can produce a message starting with the policy banner. -/
theorem executeTool_no_policy_take (resolve : Text → FPath) (runOut webOut : Text → Text)
    (s' : Reg) (tool arg1 arg2 c : Text) (pr : ParseOutcome)
    (htool : tool = "write_file".data ∨ tool = "edit_file".data)
    (hfile : fsGet s'.fs (resolve arg1) = some (Entry.file c))
    (hmem : resolve arg1 ∈ s'.readFiles) :
    ((executeTool resolve runOut webOut s' tool arg1 arg2 pr).2).take 7 ≠ "POLICY ".data := by
  rcases htool with rfl | rfl
  · have hexec : executeTool resolve runOut webOut s' ("write_file".data) arg1 arg2 pr
        = write_file resolve s' arg1 arg2 := by
      unfold executeTool
      rw [if_neg (by decide), if_neg (by decide), if_pos rfl]
    have hw : write_file resolve s' arg1 arg2 =
        ({ fs := fsSet (addDirs s'.fs (properAncestors (resolve arg1))) (resolve arg1)
              (Entry.file arg2),
           readFiles := addRead s'.readFiles (resolve arg1) }, writeOkMsg arg1) := by
      unfold write_file
      rw [if_neg (fun hc => hc.2 hmem), if_neg (by rw [hfile]; simp)]
    rw [hexec, hw, writeOkMsg_take]
    decide
  · have hexec : executeTool resolve runOut webOut s' ("edit_file".data) arg1 arg2 pr
        = apply_diff resolve s' arg1 pr := by
      unfold executeTool
      rw [if_neg (by decide), if_neg (by decide), if_neg (by decide), if_pos rfl]
    rw [hexec]
    cases pr with
    | noMarker =>
      have h2 : (apply_diff resolve s' arg1 ParseOutcome.noMarker).2 = formatHintMsg := by
        simp [apply_diff, hfile, hmem]
      rw [h2]; decide
    | badFormat =>
      have h2 : (apply_diff resolve s' arg1 ParseOutcome.badFormat).2 = invalidFormatMsg := by
        simp [apply_diff, hfile, hmem]
      rw [h2]; decide
    | ok sb rb =>
      rcases applySRCore_cases (splitlinesKeep c) sb rb with ⟨t, ht⟩ | ⟨t, ht⟩ | ht | ht
      · have h2 : (apply_diff resolve s' arg1 (ParseOutcome.ok sb rb)).2 = exactMsg := by
          simp [apply_diff, hfile, hmem, ht]
        rw [h2]; decide
      · have h2 : (apply_diff resolve s' arg1 (ParseOutcome.ok sb rb)).2 = relaxedMsg := by
          simp [apply_diff, hfile, hmem, ht]
        rw [h2]; decide
      · have h2 : (apply_diff resolve s' arg1 (ParseOutcome.ok sb rb)).2 = emptyMsg := by
          simp [apply_diff, hfile, hmem, ht]
        rw [h2]; decide
      · have h2 : (apply_diff resolve s' arg1 (ParseOutcome.ok sb rb)).2 = notFoundMsg := by
          simp [apply_diff, hfile, hmem, ht]
        rw [h2]; decide

/-- C6: the loop's silent pre-emptive `read_file` (core.py lines 71-75)
runs before the confirmation gate and the dispatch, so for a
`write_file`/`edit_file` action on an existing readable file the
read-before-write PolicyViolation branches of the registry are
unreachable through the loop, whether or not the model ever issued a read
action. -/
theorem preemptive_read_blocks_policy (resolve : Text → FPath) (runOut webOut : Text → Text)
    (s : Reg) (tool arg1 arg2 c : Text) (pr : ParseOutcome) (cd deny : Bool)
    (htool : tool = "write_file".data ∨ tool = "edit_file".data)
    (harg : arg1 ≠ [])
    (hfile : fsGet s.fs (resolve arg1) = some (Entry.file c)) :
    (agentStep resolve runOut webOut s tool arg1 arg2 pr cd deny).2 ≠ policyWriteMsg arg1 ∧
    (agentStep resolve runOut webOut s tool arg1 arg2 pr cd deny).2 ≠ policyUpdatesMsg arg1 := by
  have hpre : preRead resolve s tool arg1 =
      { s with readFiles := addRead s.readFiles (resolve arg1) } := by
    unfold preRead
    rw [if_pos ⟨Or.symm htool, harg⟩]
    simp [read_file, hfile]
  have hfile2 : fsGet (preRead resolve s tool arg1).fs (resolve arg1)
      = some (Entry.file c) := by rw [hpre]; exact hfile
  have hmem : resolve arg1 ∈ (preRead resolve s tool arg1).readFiles := by
    rw [hpre]; exact mem_addRead_self _ _
  have hexec := executeTool_no_policy_take resolve runOut webOut
    (preRead resolve s tool arg1) tool arg1 arg2 c pr htool hfile2 hmem
  have hstep : (agentStep resolve runOut webOut s tool arg1 arg2 pr cd deny).2 = deniedMsg ∨
      (agentStep resolve runOut webOut s tool arg1 arg2 pr cd deny).2
        = (executeTool resolve runOut webOut (preRead resolve s tool arg1)
            tool arg1 arg2 pr).2 := by
    unfold agentStep
    split_ifs <;> simp
  rcases hstep with h | h <;> rw [h]
  · exact ⟨ne_policyWriteMsg _ _ (by decide), ne_policyUpdatesMsg _ _ (by decide)⟩
  · exact ⟨ne_policyWriteMsg _ _ hexec, ne_policyUpdatesMsg _ _ hexec⟩

/-- C6 witness: a `write_file` action through the loop on an existing file
that was never read. -/
theorem preemptive_read_blocks_policy_witness :
    (agentStep resolveSeg noOut noOut s1demo ("write_file".data) ("f".data) ("n".data)
        ParseOutcome.noMarker true false).2 ≠ policyWriteMsg ("f".data) ∧
    (agentStep resolveSeg noOut noOut s1demo ("write_file".data) ("f".data) ("n".data)
        ParseOutcome.noMarker true false).2 ≠ policyUpdatesMsg ("f".data) :=
  preemptive_read_blocks_policy resolveSeg noOut noOut s1demo ("write_file".data)
    "f".data ("n".data) ("old".data) ParseOutcome.noMarker true false
    (Or.inl rfl) (by decide) (by decide)

/-- C8 counterexample: the loop keeps `arg1`/`arg2` across `TOOL:` markers,
so the second argument can come from lines BEFORE the last marker — here
`"hello"` was set by the first block and survives — while the claim's
reading (`parseAsSpecified`, fresh state at the last marker) yields the
empty string. -/
theorem parse_llm_action_stale_arg2 :
    parse_llm_action
        "TOOL: write_file\nARG1: a.txt\nARG2: hello\nTOOL: write_file\nARG1: b.txt".data
      = (some ("write_file".data), some ("b.txt".data), "hello".data) ∧
    parseAsSpecified
        "TOOL: write_file\nARG1: a.txt\nARG2: hello\nTOOL: write_file\nARG1: b.txt".data
      = (some ("write_file".data), some ("b.txt".data), []) := by
  decide

/-- C8 (amended): the tool name always comes from the last `TOOL:` line,
and when no `TOOL:` line exists the parser returns absent; the arguments
are produced by the last marker's `blockUpdate`, which re-extracts them
from the following lines only when an `ARG1:` line immediately follows
(and, for `arg2`, an `ARG2:` line or an `edit_file` block start is found)
— otherwise values from earlier markers persist. -/
theorem parse_llm_action_last_tool_marker :
    (∀ t : Text, (∀ l ∈ splitlinesNoKeep (pystrip t), isPre toolMarker l = false) →
      parse_llm_action t = (none, none, [])) ∧
    (∀ (t : Text) (pre post : List Text) (l : Text),
      splitlinesNoKeep (pystrip t) = pre ++ l :: post →
      isPre toolMarker l = true →
      (∀ l' ∈ post, isPre toolMarker l' = false) →
      ∃ a1 a2, parse_llm_action t = blockUpdate (colonTail l) post a1 a2 ∧
        (parse_llm_action t).1 = some (colonTail l)) := by
  constructor
  · intro t h
    exact parseLines_no_tool _ _ h
  · intro t pre post l hsplit hl hpost
    obtain ⟨a1, a2, hp⟩ := parseLines_last pre l post (none, none, []) hl hpost
    refine ⟨a1, a2, ?_, ?_⟩
    · unfold parse_llm_action
      rw [hsplit]
      exact hp
    · unfold parse_llm_action
      rw [hsplit, hp, blockUpdate_fst]

/-- C8 witness: prose followed by a single action block. -/
theorem parse_llm_action_last_tool_marker_witness :
    ∃ a1 a2, parse_llm_action ("thinking\nTOOL: read_file\nARG1: x.txt".data)
        = blockUpdate (colonTail ("TOOL: read_file".data)) ["ARG1: x.txt".data] a1 a2 ∧
      (parse_llm_action ("thinking\nTOOL: read_file\nARG1: x.txt".data)).1
        = some (colonTail ("TOOL: read_file".data)) :=
  parse_llm_action_last_tool_marker.2 ("thinking\nTOOL: read_file\nARG1: x.txt".data)
    ["thinking".data] ["ARG1: x.txt".data] ("TOOL: read_file".data)
    (by decide) (by decide) (by decide)

/-- C10: across every registry operation the read set only grows; a path
enters it exactly on a successful read or a successful write/create, and
failed reads, failed writes, and the non-mutating operations leave it
unchanged. -/
theorem readset_monotone (resolve : Text → FPath) (runOut webOut : Text → Text)
    (s : Reg) (op : Op) :
    s.readFiles ⊆ (stepOp resolve runOut webOut s op).1.readFiles ∧
    (∀ q, q ∈ (stepOp resolve runOut webOut s op).1.readFiles → q ∈ s.readFiles ∨
      (∃ a, op = Op.read a ∧ q = resolve a ∧ readOK s (resolve a)) ∨
      (∃ a c2, op = Op.write a c2 ∧ q = resolve a ∧ writeOK s (resolve a))) ∧
    (∀ a, op = Op.read a → readOK s (resolve a) →
      resolve a ∈ (stepOp resolve runOut webOut s op).1.readFiles) ∧
    (∀ a c2, op = Op.write a c2 → writeOK s (resolve a) →
      resolve a ∈ (stepOp resolve runOut webOut s op).1.readFiles) ∧
    (∀ a, op = Op.read a → ¬ readOK s (resolve a) →
      (stepOp resolve runOut webOut s op).1.readFiles = s.readFiles) ∧
    (∀ a c2, op = Op.write a c2 → ¬ writeOK s (resolve a) →
      (stepOp resolve runOut webOut s op).1.readFiles = s.readFiles) ∧
    (∀ a, op = Op.list a →
      (stepOp resolve runOut webOut s op).1.readFiles = s.readFiles) ∧
    (∀ a pr, op = Op.edit a pr →
      (stepOp resolve runOut webOut s op).1.readFiles = s.readFiles) ∧
    (∀ cmd eff, op = Op.run cmd eff →
      (stepOp resolve runOut webOut s op).1.readFiles = s.readFiles) ∧
    (∀ q, op = Op.web q →
      (stepOp resolve runOut webOut s op).1.readFiles = s.readFiles) := by
  cases op with
  | list p =>
    have hst : (stepOp resolve runOut webOut s (Op.list p)).1 = s :=
      list_files_state resolve s p
    rw [hst]
    exact ⟨fun _ h => h, fun q h => Or.inl h, by simp,
      by simp, by simp,
      by simp, fun a heq => rfl, by simp,
      by simp, by simp⟩
  | read p =>
    cases hf : fsGet s.fs (resolve p) with
    | none =>
      have hst : (stepOp resolve runOut webOut s (Op.read p)).1 = s := by
        simp [stepOp, read_file, hf]
      rw [hst]
      refine ⟨fun _ h => h, fun q h => Or.inl h, ?_, by simp,
        fun a heq _ => rfl, by simp, by simp,
        by simp, by simp,
        by simp⟩
      intro a heq hok
      injection heq with h1
      subst h1
      obtain ⟨c2, hc2⟩ := hok
      rw [hf] at hc2
      cases hc2
    | some e =>
      cases e with
      | dir =>
        have hst : (stepOp resolve runOut webOut s (Op.read p)).1 = s := by
          simp [stepOp, read_file, hf]
        rw [hst]
        refine ⟨fun _ h => h, fun q h => Or.inl h, ?_, by simp,
          fun a heq _ => rfl, by simp, by simp,
          by simp, by simp,
          by simp⟩
        intro a heq hok
        injection heq with h1
        subst h1
        obtain ⟨c2, hc2⟩ := hok
        rw [hf] at hc2
        cases hc2
      | file c0 =>
        have hst : (stepOp resolve runOut webOut s (Op.read p)).1.readFiles =
            addRead s.readFiles (resolve p) := by
          simp [stepOp, read_file, hf]
        rw [hst]
        refine ⟨subset_addRead _ _, ?_, ?_, by simp, ?_,
          by simp, by simp,
          by simp, by simp,
          by simp⟩
        · intro q hq
          rcases (mem_addRead _ _ _).1 hq with rfl | hq'
          · exact Or.inr (Or.inl ⟨p, rfl, rfl, ⟨c0, hf⟩⟩)
          · exact Or.inl hq'
        · intro a heq _
          injection heq with h1
          subst h1
          exact mem_addRead_self _ _
        · intro a heq hnok
          injection heq with h1
          subst h1
          exact absurd ⟨c0, hf⟩ hnok
  | write p c0 =>
    by_cases hpol : (fsGet s.fs (resolve p)).isSome = true ∧ resolve p ∉ s.readFiles
    · have hst : (stepOp resolve runOut webOut s (Op.write p c0)).1 = s := by
        simp only [stepOp, write_file]
        rw [if_pos hpol]
      rw [hst]
      refine ⟨fun _ h => h, fun q h => Or.inl h, by simp, ?_,
        by simp, fun a c2 heq _ => rfl, by simp,
        by simp, by simp,
        by simp⟩
      intro a c2 heq hok
      injection heq with h1 h2
      subst h1
      exact absurd hpol hok.1
    · by_cases hdir : fsGet s.fs (resolve p) = some Entry.dir
      · have hst : (stepOp resolve runOut webOut s (Op.write p c0)).1 = s := by
          simp only [stepOp, write_file]
          rw [if_neg hpol, if_pos hdir]
        rw [hst]
        refine ⟨fun _ h => h, fun q h => Or.inl h, by simp, ?_,
          by simp, fun a c2 heq _ => rfl, by simp,
          by simp, by simp,
          by simp⟩
        intro a c2 heq hok
        injection heq with h1 h2
        subst h1
        exact absurd hdir hok.2
      · have hst : (stepOp resolve runOut webOut s (Op.write p c0)).1.readFiles =
            addRead s.readFiles (resolve p) := by
          simp only [stepOp, write_file]
          rw [if_neg hpol, if_neg hdir]
        rw [hst]
        refine ⟨subset_addRead _ _, ?_, by simp, ?_,
          by simp, ?_, by simp,
          by simp, by simp,
          by simp⟩
        · intro q hq
          rcases (mem_addRead _ _ _).1 hq with rfl | hq'
          · exact Or.inr (Or.inr ⟨p, c0, rfl, rfl, hpol, hdir⟩)
          · exact Or.inl hq'
        · intro a c2 heq _
          injection heq with h1 h2
          subst h1
          exact mem_addRead_self _ _
        · intro a c2 heq hnok
          injection heq with h1 h2
          subst h1
          exact absurd ⟨hpol, hdir⟩ hnok
  | edit p pr =>
    have hst : (stepOp resolve runOut webOut s (Op.edit p pr)).1.readFiles = s.readFiles :=
      apply_diff_readFiles resolve s p pr
    rw [hst]
    exact ⟨fun _ h => h, fun q h => Or.inl h, by simp,
      by simp, by simp,
      by simp, by simp,
      fun a pr2 heq => rfl, by simp, by simp⟩
  | run cmd eff =>
    exact ⟨fun _ h => h, fun q h => Or.inl h, by simp,
      by simp, by simp,
      by simp, by simp,
      by simp, fun cmd2 eff2 heq => rfl, by simp⟩
  | web q0 =>
    exact ⟨fun _ h => h, fun q h => Or.inl h, by simp,
      by simp, by simp,
      by simp, by simp,
      by simp, by simp, fun q heq => rfl⟩

/-- C10 witness: a successful read adds the path; the set never shrinks. -/
theorem readset_monotone_witness :
    resolveSeg ("f".data) ∈
      (stepOp resolveSeg noOut noOut s1demo (Op.read ("f".data))).1.readFiles ∧
    s1demo.readFiles ⊆
      (stepOp resolveSeg noOut noOut s1demo (Op.read ("f".data))).1.readFiles :=
  ⟨(readset_monotone resolveSeg noOut noOut s1demo (Op.read ("f".data))).2.2.1
      "f".data rfl ⟨"old".data, by decide⟩,
   (readset_monotone resolveSeg noOut noOut s1demo (Op.read ("f".data))).1⟩

end DaAgent

